import Mathlib

/-!
Shallow embedding of `src/cpp/server/ct-mirror.cc` (the mirror server entry
point of the certificate-transparency repository), together with proofs about
the pending-STH queue, the `STHUpdater` reconciliation loop, and the startup
logic of `main`.

Modelling conventions:
* The C++ `ct::SignedTreeHead` protobuf is reduced to the two fields this file
  reads (`tree_size`, `timestamp`), both machine integers modelled as `Nat`.
* The C++ `std::map<int64_t, ct::SignedTreeHead>` is modelled as an
  association list sorted strictly ascending by key, with `std::map`
  operations translated member by member; in particular `std::map::insert`
  does NOT overwrite an entry whose key is already present.
* Loops are modelled as step functions over explicit state; the sequence of
  `ClusterStateController::NewTreeHead` calls is recorded in a `promoted`
  trace field.
-/

/-- The two fields of `ct::SignedTreeHead` that `ct-mirror.cc` reads:
`sth.tree_size()` and `sth.timestamp()`. -/
structure SignedTreeHead where
  tree_size : Nat
  timestamp : Nat
  deriving DecidableEq, Repr

/-- The pending-STH queue `map<int64_t, ct::SignedTreeHead>` of `main`,
modelled as an association list sorted strictly ascending by key. -/
abbrev Queue := List (Nat × SignedTreeHead)

/-- The `std::map::find(k)` operation: the value stored under key `k`, if
any. -/
def mapFind (k : Nat) : Queue → Option SignedTreeHead
  | [] => none
  | (k', v') :: rest => if k = k' then some v' else mapFind k rest

/-- The `std::map::insert(make_pair(k, v))` operation: inserts `(k, v)` in
key order, and is a no-op when key `k` is already present (C++ `insert`
never overwrites). -/
def mapInsert (k : Nat) (v : SignedTreeHead) : Queue → Queue
  | [] => [(k, v)]
  | (k', v') :: rest =>
    if k < k' then (k, v) :: (k', v') :: rest
    else if k = k' then (k', v') :: rest
    else (k', v') :: mapInsert k v rest

/-- The `new_sth` callback of `main` (ct-mirror.cc lines 348-359): looks up
`sth.tree_size()` in the queue; if an entry exists and the incoming head's
timestamp is strictly older, it returns leaving the queue untouched;
otherwise it calls `queue.insert(make_pair(sth.tree_size(), sth))`. -/
def new_sth (sth : SignedTreeHead) (q : Queue) : Queue :=
  match mapFind sth.tree_size q with
  | some existing =>
    if sth.timestamp < existing.timestamp then q
    else mapInsert sth.tree_size sth q
  | none => mapInsert sth.tree_size sth q

/-- The inner drain loop of `STHUpdater` (ct-mirror.cc lines 237-243):
`while (!queue->empty() && queue->begin()->second.tree_size() <= local_size)`
it calls `cluster_state_controller->NewTreeHead(queue->begin()->second)` and
erases `queue->begin()`. Returns the list of heads passed to `NewTreeHead`,
in call order, together with the remaining queue. -/
def drain (local_size : Nat) : Queue → (List SignedTreeHead × Queue)
  | [] => ([], [])
  | (k, v) :: rest =>
    if v.tree_size ≤ local_size then
      let r := drain local_size rest
      (v :: r.1, r.2)
    else ([], (k, v) :: rest)

/-- Well-formedness invariant of the pending queue: keys strictly ascending
(so at most one entry per key) and every entry is stored under its own
`tree_size` (as `new_sth` always does). -/
def QueueWF (q : Queue) : Prop :=
  List.Pairwise (fun a b => a.1 < b.1) q ∧ ∀ e ∈ q, e.1 = e.2.tree_size

instance (q : Queue) : Decidable (QueueWF q) := by
  unfold QueueWF; infer_instance

/-- An externally visible event of the mirror process: either the fetcher
delivers a verified head to the `new_sth` callback, or the `STHUpdater` loop
wakes up, reads `db->TreeSize()` (the `tick` argument) and drains the queue. -/
inductive Event where
  | deliver (sth : SignedTreeHead)
  | tick (localSize : Nat)
  deriving DecidableEq, Repr

/-- State shared between the `new_sth` callback and the `STHUpdater` loop:
the pending queue plus the trace of heads passed to
`ClusterStateController::NewTreeHead` so far. -/
structure MirrorState where
  queue : Queue
  promoted : List SignedTreeHead
  deriving DecidableEq, Repr

/-- One event step of the mirror process. -/
def stepEvent (s : MirrorState) : Event → MirrorState
  | .deliver sth => { s with queue := new_sth sth s.queue }
  | .tick l =>
    let r := drain l s.queue
    { queue := r.2, promoted := s.promoted ++ r.1 }

/-- Runs a sequence of events from a given state. -/
def runEvents (s : MirrorState) (es : List Event) : MirrorState :=
  es.foldl stepEvent s

/-- The state `main` starts the mirror pipeline in: empty queue, nothing
promoted yet. -/
def initialState : MirrorState := ⟨[], []⟩

/-- Decides whether a list of tree sizes is non-decreasing (the ordering
property the spec asserts of the promoted-heads trace). -/
def sizesNonDecreasing : List Nat → Bool
  | [] => true
  | [_] => true
  | a :: b :: rest => decide (a ≤ b) && sizesNonDecreasing (b :: rest)

/-- State of the `STHUpdater` thread (ct-mirror.cc lines 217-249): the shared
queue, the trace of heads passed to `ClusterStateController::NewTreeHead`,
whether `task->Return(util::Status::CANCELLED)` has been called, and how many
times the loop has executed its `sleep_for` call. -/
structure UpdaterState where
  queue : Queue
  promoted : List SignedTreeHead
  returnedCancelled : Bool
  sleeps : Nat
  deriving DecidableEq, Repr

/-- Outcome of one execution of the `while (true)` body of `STHUpdater`:
either the loop terminates, or it completes the body (ending with the
`sleep_for`) and iterates again with the given state. -/
inductive LoopStep where
  | exit : LoopStep
  | next (s : UpdaterState) : LoopStep
  deriving DecidableEq, Repr

/-- Whether a loop step terminated the loop. -/
def LoopStep.isExit : LoopStep → Bool
  | .exit => true
  | .next _ => false

/-- One execution of the `while (true)` body of `STHUpdater` (ct-mirror.cc
lines 227-248). The cancellation branch calls
`task->Return(util::Status::CANCELLED)` — recorded in `returnedCancelled` —
but contains no `return` or `break` statement, and `Task::Return` is an
ordinary (non-throwing, non-unwinding) call, so control always falls through
to the drain and then to `sleep_for` (recorded by incrementing `sleeps`);
the body contains no path that produces `LoopStep.exit`. -/
def sthUpdaterBody (cancelRequested : Bool) (local_size : Nat)
    (s : UpdaterState) : LoopStep :=
  let s1 := if cancelRequested then { s with returnedCancelled := true } else s
  let r := drain local_size s1.queue
  .next { s1 with
          queue := r.2
          promoted := s1.promoted ++ r.1
          sleeps := s1.sleeps + 1 }

/-- The command-line flags of ct-mirror.cc that its startup logic reads,
plus `target_public_key_readable`, which models whether
`ReadPublicKey(FLAGS_target_public_key)` succeeds on the actual file. -/
structure Flags where
  server : String
  sqlite_db : String
  leveldb_db : String
  cert_dir : String
  tree_dir : String
  etcd_host : String
  target_public_key : String
  target_log_uri : String
  target_public_key_readable : Bool
  deriving DecidableEq, Repr

/-- The storage-backend selection count of `main` (ct-mirror.cc lines
264-266): `!FLAGS_sqlite_db.empty() + !FLAGS_leveldb_db.empty() +
(!FLAGS_cert_dir.empty() | !FLAGS_tree_dir.empty())`, with C++ bools
converted to 0/1. -/
def backendFlagCount (f : Flags) : Nat :=
  (if f.sqlite_db ≠ "" then 1 else 0) + (if f.leveldb_db ≠ "" then 1 else 0) +
    (if f.cert_dir ≠ "" ∨ f.tree_dir ≠ "" then 1 else 0)

/-- The sqlite backend is selected when its flag is non-empty. -/
def sqliteSelected (f : Flags) : Prop := f.sqlite_db ≠ ""

/-- The leveldb backend is selected when its flag is non-empty. -/
def leveldbSelected (f : Flags) : Prop := f.leveldb_db ≠ ""

/-- The file backend is selected when either directory flag is non-empty
(this is the `|` of the C++ condition). -/
def fileSelected (f : Flags) : Prop := f.cert_dir ≠ "" ∨ f.tree_dir ≠ ""

/-- The observable startup steps of `main` after the flag checks, in program
order. `startFetcher` is the construction of the `RemotePeer` and
`ContinuousFetcher` (the start of the fetch pipeline, lines 361-371). -/
inductive StartupEvent where
  | constructDb
  | useFakeEtcd
  | useRealEtcd
  | initialiseServer
  | setClusterConfig (minNodes minFraction : Nat)
  | startElection
  | waitToBecomeMaster
  | readPublicKey
  | startFetcher
  | startSthUpdater
  | runServer
  deriving DecidableEq, Repr

/-- Result of running `main`'s startup sequence: `exited code evs` models
`exit(code)` after performing the steps `evs`, `aborted evs` models a failed
`CHECK` (which aborts the process) after the steps `evs`, and `running evs`
means startup completed, having performed exactly the steps `evs`. -/
inductive StartupResult where
  | exited (code : Nat) (events : List StartupEvent)
  | aborted (events : List StartupEvent)
  | running (events : List StartupEvent)
  deriving DecidableEq, Repr

/-- The startup steps performed before the process exited, aborted or
reached its serving loop. -/
def startupEvents : StartupResult → List StartupEvent
  | .exited _ es => es
  | .aborted es => es
  | .running es => es

/-- The tail of `main` from `CHECK(!FLAGS_target_public_key.empty())`
onwards (ct-mirror.cc lines 335-379): public-key and URI checks, then the
fetch pipeline, the `STHUpdater` thread, and `server.Run()`. -/
def afterElectionSteps (f : Flags) (evs : List StartupEvent) : StartupResult :=
  if f.target_public_key = "" then .aborted evs
  else if f.target_log_uri = "" then .aborted evs
  else if f.target_public_key_readable = false then .aborted evs
  else .running (evs ++ [.readPublicKey, .startFetcher, .startSthUpdater,
                         .runServer])

/-- The startup sequence of `main` (ct-mirror.cc lines 252-379): the
storage-backend flag check (`exit(1)` on failure), the
`CHECK_NE(FLAGS_cert_dir, FLAGS_tree_dir)` for the file backend, database
construction, etcd-client selection by `stand_alone_mode =
FLAGS_etcd_host.empty()`, server initialisation, then either the standalone
bootstrap block (default `ClusterConfig`, election) or
`CHECK(!FLAGS_server.empty())`, and finally `afterElectionSteps`. -/
def mainStartup (f : Flags) : StartupResult :=
  if backendFlagCount f ≠ 1 then .exited 1 []
  else if f.sqlite_db = "" ∧ f.leveldb_db = "" ∧ f.cert_dir = f.tree_dir then
    .aborted []
  else
    let standAlone := f.etcd_host = ""
    let evs := [StartupEvent.constructDb,
                if standAlone then StartupEvent.useFakeEtcd
                else StartupEvent.useRealEtcd,
                StartupEvent.initialiseServer]
    if standAlone then
      afterElectionSteps f
        (evs ++ [.setClusterConfig 1 1, .startElection, .waitToBecomeMaster])
    else if f.server = "" then .aborted evs
    else afterElectionSteps f evs

/-- The `ValidatePort` flag validator (ct-mirror.cc lines 150-156),
registered for `FLAGS_port`: rejects `port <= 0 || port > 65535`. -/
def ValidatePort (port : Int) : Bool :=
  if port ≤ 0 ∨ port > 65535 then false else true

/-! Helper lemmas about the queue operations. -/

theorem mem_mapInsert_of_mem {e : Nat × SignedTreeHead} {q : Queue}
    (k : Nat) (v : SignedTreeHead) (h : e ∈ q) : e ∈ mapInsert k v q := by
  induction q with
  | nil => cases h
  | cons hd tl ih =>
    simp only [mapInsert]
    split
    · exact List.mem_cons_of_mem _ h
    · split
      · exact h
      · rcases List.mem_cons.mp h with h | h
        · exact h ▸ List.mem_cons_self _ _
        · exact List.mem_cons_of_mem _ (ih h)

theorem mem_of_mem_mapInsert {e : Nat × SignedTreeHead} {q : Queue}
    {k : Nat} {v : SignedTreeHead} (h : e ∈ mapInsert k v q) :
    e ∈ q ∨ e = (k, v) := by
  induction q with
  | nil =>
    simp only [mapInsert] at h
    exact Or.inr (List.mem_singleton.mp h)
  | cons hd tl ih =>
    simp only [mapInsert] at h
    split at h
    · rcases List.mem_cons.mp h with h | h
      · exact Or.inr h
      · exact Or.inl h
    · split at h
      · exact Or.inl h
      · rcases List.mem_cons.mp h with h | h
        · exact Or.inl (h ▸ List.mem_cons_self _ _)
        · rcases ih h with h | h
          · exact Or.inl (List.mem_cons_of_mem _ h)
          · exact Or.inr h

theorem length_le_length_mapInsert (k : Nat) (v : SignedTreeHead) (q : Queue) :
    q.length ≤ (mapInsert k v q).length := by
  induction q with
  | nil => simp [mapInsert]
  | cons hd tl ih =>
    simp only [mapInsert]
    split
    · simp
    · split
      · simp
      · simpa using ih

theorem pairwise_mapInsert {q : Queue} (k : Nat) (v : SignedTreeHead)
    (h : List.Pairwise (fun a b => a.1 < b.1) q) :
    List.Pairwise (fun a b => a.1 < b.1) (mapInsert k v q) := by
  induction q with
  | nil => simp [mapInsert]
  | cons hd tl ih =>
    rcases List.pairwise_cons.mp h with ⟨hhd, htl⟩
    simp only [mapInsert]
    split
    · refine List.pairwise_cons.mpr ⟨?_, h⟩
      intro b hb
      rcases List.mem_cons.mp hb with hb | hb
      · simpa [hb] using ‹k < hd.1›
      · exact lt_trans ‹k < hd.1› (hhd b hb)
    · split
      · exact h
      · refine List.pairwise_cons.mpr ⟨?_, ih htl⟩
        intro b hb
        rcases mem_of_mem_mapInsert hb with hb | hb
        · exact hhd b hb
        · subst hb
          omega

theorem queueWF_mapInsert {q : Queue} (v : SignedTreeHead)
    (h : QueueWF q) : QueueWF (mapInsert v.tree_size v q) := by
  refine ⟨pairwise_mapInsert _ _ h.1, ?_⟩
  intro e he
  rcases mem_of_mem_mapInsert he with he | he
  · exact h.2 e he
  · simp [he]

theorem queueWF_new_sth {q : Queue} (sth : SignedTreeHead)
    (h : QueueWF q) : QueueWF (new_sth sth q) := by
  unfold new_sth
  split
  · split
    · exact h
    · exact queueWF_mapInsert sth h
  · exact queueWF_mapInsert sth h

theorem drain_fst_le (local_size : Nat) (q : Queue) :
    ∀ h ∈ (drain local_size q).1, h.tree_size ≤ local_size := by
  induction q with
  | nil => simp [drain]
  | cons hd tl ih =>
    simp only [drain]
    split
    · intro h hh
      rcases List.mem_cons.mp hh with hh | hh
      · subst hh; assumption
      · exact ih h hh
    · simp

theorem drain_decomposition (local_size : Nat) (q : Queue) :
    q.map Prod.snd =
      (drain local_size q).1 ++ (drain local_size q).2.map Prod.snd := by
  induction q with
  | nil => simp [drain]
  | cons hd tl ih =>
    simp only [drain]
    split
    · simpa using ih
    · simp

theorem drain_snd_sublist (local_size : Nat) (q : Queue) :
    (drain local_size q).2.Sublist q := by
  induction q with
  | nil => simp [drain]
  | cons hd tl ih =>
    simp only [drain]
    split
    · exact ih.cons hd
    · simp

theorem drain_fst_exists_key (local_size : Nat) (q : Queue) :
    ∀ h ∈ (drain local_size q).1, ∃ k, (k, h) ∈ q := by
  induction q with
  | nil => simp [drain]
  | cons hd tl ih =>
    simp only [drain]
    split
    · intro h hh
      rcases List.mem_cons.mp hh with hh | hh
      · exact ⟨hd.1, by subst hh; simp⟩
      · rcases ih h hh with ⟨k, hk⟩
        exact ⟨k, List.mem_cons_of_mem _ hk⟩
    · simp

theorem queueWF_drain {q : Queue} (local_size : Nat) (h : QueueWF q) :
    QueueWF (drain local_size q).2 :=
  ⟨h.1.sublist (drain_snd_sublist local_size q),
   fun e he => h.2 e ((drain_snd_sublist local_size q).subset he)⟩

theorem queueWF_stepEvent {s : MirrorState} (e : Event)
    (h : QueueWF s.queue) : QueueWF (stepEvent s e).queue := by
  cases e with
  | deliver sth => exact queueWF_new_sth sth h
  | tick l => exact queueWF_drain l h

theorem queueWF_runEvents (es : List Event) :
    ∀ s : MirrorState, QueueWF s.queue → QueueWF (runEvents s es).queue := by
  induction es with
  | nil => intro s h; exact h
  | cons e rest ih =>
    intro s h
    exact ih (stepEvent s e) (queueWF_stepEvent e h)

theorem drain_fst_pairwise {q : Queue} (local_size : Nat) (h : QueueWF q) :
    List.Pairwise (fun a b => a.tree_size < b.tree_size)
      (drain local_size q).1 := by
  induction q with
  | nil => simp [drain]
  | cons hd tl ih =>
    rcases List.pairwise_cons.mp h.1 with ⟨hhd, htl⟩
    have hwf_tl : QueueWF tl :=
      ⟨htl, fun e he => h.2 e (List.mem_cons_of_mem _ he)⟩
    simp only [drain]
    split
    · refine List.pairwise_cons.mpr ⟨?_, ih hwf_tl⟩
      intro b hb
      rcases drain_fst_exists_key local_size tl b hb with ⟨k, hk⟩
      have h1 : hd.1 = hd.2.tree_size := h.2 hd (List.mem_cons_self _ _)
      have h2 : k = b.tree_size := h.2 (k, b) (List.mem_cons_of_mem _ hk)
      have h3 : hd.1 < k := hhd (k, b) hk
      omega
    · simp

theorem queueWF_sizes_distinct {q : Queue} (h : QueueWF q) :
    List.Pairwise (fun a b => a ≠ b)
      (q.map (fun p => p.2.tree_size)) := by
  rw [List.pairwise_map]
  induction q with
  | nil => simp
  | cons hd tl ih =>
    rcases List.pairwise_cons.mp h.1 with ⟨hhd, htl⟩
    refine List.pairwise_cons.mpr
      ⟨?_, ih ⟨htl, fun e he => h.2 e (List.mem_cons_of_mem _ he)⟩⟩
    intro b hb
    have h1 := h.2 hd (List.mem_cons_self _ _)
    have h2 := h.2 b (List.mem_cons_of_mem _ hb)
    have h3 := hhd b hb
    omega

/-! Theorems settling the claims. -/

/-- C1 (code-bug evidence): delivering STH(tree_size 5, timestamp 10) and
then STH(tree_size 5, timestamp 20) to the `new_sth` callback leaves the
OLDER head (timestamp 10) in the queue. The claim says the newer-timestamp
head replaces the older one, and the callback's own older-timestamp
warning branch shows that was the intent, but `std::map::insert` does not
overwrite the existing entry, so the newer head is silently dropped. -/
theorem new_sth_newer_head_dropped :
    new_sth ⟨5, 20⟩ (new_sth ⟨5, 10⟩ []) = [(5, ⟨5, 10⟩)] := by decide

/-- C2: every head that a `tick` of the `STHUpdater` loop passes to
`ClusterStateController::NewTreeHead` (i.e. that is newly appended to the
`promoted` trace) has `tree_size` at most the `db->TreeSize()` value read at
the start of that iteration; heads whose size exceeds it stay queued. -/
theorem sthUpdater_no_premature_promotion (s : MirrorState) (l : Nat) :
    ∀ h ∈ (stepEvent s (.tick l)).promoted,
      h ∈ s.promoted ∨ h.tree_size ≤ l := by
  intro h hh
  simp only [stepEvent] at hh
  rcases List.mem_append.mp hh with hh | hh
  · exact Or.inl hh
  · exact Or.inr (drain_fst_le l s.queue h hh)

/-- C2 witness: a head of size 5 promoted at a tick whose local tree size
is 10 satisfies the bound. -/
theorem sthUpdater_no_premature_promotion_witness :
    (⟨5, 1⟩ : SignedTreeHead) ∈ ([] : List SignedTreeHead) ∨
      (⟨5, 1⟩ : SignedTreeHead).tree_size ≤ 10 :=
  sthUpdater_no_premature_promotion ⟨[(5, ⟨5, 1⟩)], []⟩ 10 ⟨5, 1⟩ (by decide)

/-- C3 (counterexample): the trace of heads passed to
`ClusterStateController::NewTreeHead` is NOT non-decreasing in `tree_size`
across iterations. Concretely: a verified head of size 50 is delivered and
promoted (local size 100), then a verified head of size 30 is delivered —
`new_sth` accepts it, nothing guards against sizes below an
already-promoted head — and the next iteration promotes it, producing the
promotion sequence 50, 30. -/
theorem promotion_not_monotonic_across_iterations :
    (runEvents initialState
        [.deliver ⟨50, 1⟩, .tick 100, .deliver ⟨30, 2⟩, .tick 100]).promoted =
      [⟨50, 1⟩, ⟨30, 2⟩] ∧
    sizesNonDecreasing
      ((runEvents initialState
          [.deliver ⟨50, 1⟩, .tick 100, .deliver ⟨30, 2⟩,
           .tick 100]).promoted.map SignedTreeHead.tree_size) = false := by
  decide

/-- C3 (amended): within a single iteration of the `STHUpdater` loop, the
heads passed to `ClusterStateController::NewTreeHead` are promoted in
strictly increasing `tree_size` order, provided the queue satisfies its
invariant (keys ascending, each entry keyed by its own size). Across
iterations the promoted sequence can decrease, as the counterexample
shows. -/
theorem promotion_monotonic_within_iteration (local_size : Nat) (q : Queue)
    (hwf : QueueWF q) :
    List.Pairwise (fun a b => a.tree_size < b.tree_size)
      (drain local_size q).1 :=
  drain_fst_pairwise local_size hwf

/-- C3 amended-theorem witness: the batch drained from a concrete
well-formed queue is strictly increasing in tree size. -/
theorem promotion_monotonic_within_iteration_witness :
    List.Pairwise (fun a b => a.tree_size < b.tree_size)
      (drain 100 [(10, ⟨10, 1⟩), (20, ⟨20, 2⟩)]).1 :=
  promotion_monotonic_within_iteration 100 [(10, ⟨10, 1⟩), (20, ⟨20, 2⟩)]
    (by decide)

/-- C4 (code-bug evidence): the `STHUpdater` loop does not exit on
cancellation. Evaluated at a state where `task->CancelRequested()` is true,
the body records the `task->Return(CANCELLED)` call but then still drains
and reaches `sleep_for` (the sleep counter increments) and iterates again;
moreover no execution of the body ever terminates the loop, because the
cancellation branch lacks a `return`/`break` statement. -/
theorem sthUpdater_continues_after_cancel :
    sthUpdaterBody true 0 ⟨[], [], false, 0⟩ = .next ⟨[], [], true, 1⟩ ∧
    ∀ (c : Bool) (l : Nat) (s : UpdaterState),
      (sthUpdaterBody c l s).isExit = false := by
  exact ⟨by decide, fun c l s => rfl⟩

/-- C5: delivering a head whose `tree_size` is already queued under a
strictly newer timestamp is a complete no-op on the queue, and in every
state reachable from `main`'s initial empty queue the queue holds at most
one entry per `tree_size` (the stored sizes are pairwise distinct). -/
theorem new_sth_older_noop_and_sizes_unique (es : List Event)
    (sth e : SignedTreeHead) :
    (mapFind sth.tree_size (runEvents initialState es).queue = some e →
      sth.timestamp < e.timestamp →
      new_sth sth (runEvents initialState es).queue =
        (runEvents initialState es).queue) ∧
    List.Pairwise (fun a b => a ≠ b)
      ((runEvents initialState es).queue.map (fun p => p.2.tree_size)) := by
  constructor
  · intro hfind hlt
    simp [new_sth, hfind, hlt]
  · exact queueWF_sizes_distinct
      (queueWF_runEvents es initialState (by decide))

/-- C5 witness: after delivering STH(5, 10), delivering the older STH(5, 5)
leaves the queue unchanged. -/
theorem new_sth_older_noop_and_sizes_unique_witness :
    new_sth ⟨5, 5⟩ (runEvents initialState [.deliver ⟨5, 10⟩]).queue =
      (runEvents initialState [.deliver ⟨5, 10⟩]).queue :=
  (new_sth_older_noop_and_sizes_unique [.deliver ⟨5, 10⟩] ⟨5, 5⟩
    ⟨5, 10⟩).1 (by decide) (by decide)

/-- C6: the queue shrinks only by promotion. The `new_sth` callback never
removes an entry (every entry survives the call and the length never
decreases), and a drain pass removes exactly the entries it passes to
`ClusterStateController::NewTreeHead`, in order: the original queue's
values are the promoted batch followed by the values remaining queued. -/
theorem queue_removals_only_by_promotion (sth : SignedTreeHead) (q : Queue)
    (local_size : Nat) :
    (∀ e ∈ q, e ∈ new_sth sth q) ∧
    q.length ≤ (new_sth sth q).length ∧
    q.map Prod.snd =
      (drain local_size q).1 ++ (drain local_size q).2.map Prod.snd := by
  refine ⟨?_, ?_, drain_decomposition local_size q⟩
  · intro e he
    unfold new_sth
    split
    · split
      · exact he
      · exact mem_mapInsert_of_mem _ _ he
    · exact mem_mapInsert_of_mem _ _ he
  · unfold new_sth
    split
    · split
      · exact Nat.le_refl _
      · exact length_le_length_mapInsert _ _ _
    · exact length_le_length_mapInsert _ _ _

/-- C6 witness: the queued entry (7, STH(7, 1)) survives delivery of
STH(9, 2). -/
theorem queue_removals_only_by_promotion_witness :
    ((7 : Nat), (⟨7, 1⟩ : SignedTreeHead)) ∈
      new_sth ⟨9, 2⟩ [(7, ⟨7, 1⟩)] :=
  (queue_removals_only_by_promotion ⟨9, 2⟩ [(7, ⟨7, 1⟩)] 0).1
    (7, ⟨7, 1⟩) (by decide)

/-- C7: when the storage-backend flags select no backend at all, or select
more than one of sqlite, leveldb and the file-directory pair, `main` calls
`exit(1)` at the very first check, with an empty startup-event trace — in
particular before any network-facing step. -/
theorem backend_misconfig_exits (f : Flags)
    (h : (¬ sqliteSelected f ∧ ¬ leveldbSelected f ∧ ¬ fileSelected f) ∨
         (sqliteSelected f ∧ leveldbSelected f) ∨
         (sqliteSelected f ∧ fileSelected f) ∨
         (leveldbSelected f ∧ fileSelected f)) :
    mainStartup f = .exited 1 [] := by
  have hcount : backendFlagCount f ≠ 1 := by
    simp only [sqliteSelected, leveldbSelected, fileSelected] at h
    unfold backendFlagCount
    by_cases h1 : f.sqlite_db = "" <;> by_cases h2 : f.leveldb_db = "" <;>
      by_cases h3 : f.cert_dir ≠ "" ∨ f.tree_dir ≠ "" <;>
      simp_all
  unfold mainStartup
  rw [if_pos hcount]

/-- C7 witness: with every storage flag empty no backend is selected and
startup exits with status 1 having performed no steps. -/
theorem backend_misconfig_exits_witness :
    mainStartup ⟨"s", "", "", "", "", "", "k", "u", true⟩ =
      .exited 1 [] :=
  backend_misconfig_exits ⟨"s", "", "", "", "", "", "k", "u", true⟩
    (Or.inl (by simp [sqliteSelected, leveldbSelected, fileSelected]))

/-- C8: whenever the etcd host flag is empty and startup completes, the
performed steps are exactly: construct the database, use the in-process
`FakeEtcdClient`, initialise the server, write the default `ClusterConfig`
with `minimum_serving_nodes = 1` and `minimum_serving_fraction = 1`, start
the election, wait to become master, read the public key, and only then
start the fetch pipeline, the `STHUpdater` thread and the serving loop. -/
theorem standalone_bootstrap_order (f : Flags) (evs : List StartupEvent)
    (hs : f.etcd_host = "") (hrun : mainStartup f = .running evs) :
    evs = [.constructDb, .useFakeEtcd, .initialiseServer,
           .setClusterConfig 1 1, .startElection, .waitToBecomeMaster,
           .readPublicKey, .startFetcher, .startSthUpdater, .runServer] := by
  unfold mainStartup at hrun
  split at hrun
  · exact StartupResult.noConfusion hrun
  · split at hrun
    · exact StartupResult.noConfusion hrun
    · simp only [hs, if_pos] at hrun
      unfold afterElectionSteps at hrun
      split at hrun
      · exact StartupResult.noConfusion hrun
      · split at hrun
        · exact StartupResult.noConfusion hrun
        · split at hrun
          · exact StartupResult.noConfusion hrun
          · injection hrun with h
            exact h.symm

/-- C8 witness: a concrete standalone flag set (sqlite backend, empty etcd
host) reaches the running state with exactly the standalone bootstrap
sequence. -/
theorem standalone_bootstrap_order_witness :
    mainStartup ⟨"s", "db", "", "", "", "", "k", "u", true⟩ =
        .running [.constructDb, .useFakeEtcd, .initialiseServer,
                  .setClusterConfig 1 1, .startElection, .waitToBecomeMaster,
                  .readPublicKey, .startFetcher, .startSthUpdater,
                  .runServer] := by
  have h := standalone_bootstrap_order ⟨"s", "db", "", "", "", "", "k", "u",
    true⟩ (startupEvents (mainStartup ⟨"s", "db", "", "", "", "", "k", "u",
    true⟩)) rfl (by decide)
  rw [show mainStartup ⟨"s", "db", "", "", "", "", "k", "u", true⟩ =
      .running (startupEvents (mainStartup ⟨"s", "db", "", "", "", "", "k",
      "u", true⟩)) from by decide, h]

/-- C9: when neither `sqlite_db` nor `leveldb_db` is set and the file
backend is selected, startup aborts (the `CHECK_NE`) before constructing
any database if the certificate and tree directories are equal, and
performs the database-construction step whenever they differ. -/
theorem file_backend_distinct_dirs (f : Flags) (h1 : f.sqlite_db = "")
    (h2 : f.leveldb_db = "") (h3 : fileSelected f) :
    (f.cert_dir = f.tree_dir → mainStartup f = .aborted []) ∧
    (f.cert_dir ≠ f.tree_dir →
      StartupEvent.constructDb ∈ startupEvents (mainStartup f)) := by
  have hcount : backendFlagCount f = 1 := by
    unfold backendFlagCount
    rcases h3 with h3 | h3 <;> simp [sqliteSelected, h1, h2, h3, fileSelected]
  constructor
  · intro heq
    unfold mainStartup
    rw [if_neg (by omega), if_pos ⟨h1, h2, heq⟩]
  · intro hne
    unfold mainStartup
    rw [if_neg (by omega), if_neg (by simp [hne])]
    simp only
    split
    · unfold afterElectionSteps
      split
      · simp [startupEvents]
      · split
        · simp [startupEvents]
        · split
          · simp [startupEvents]
          · simp [startupEvents]
    · split
      · simp [startupEvents]
      · unfold afterElectionSteps
        split
        · simp [startupEvents]
        · split
          · simp [startupEvents]
          · split
            · simp [startupEvents]
            · simp [startupEvents]

/-- C9 witness: with distinct non-empty directories the database is
constructed. -/
theorem file_backend_distinct_dirs_witness :
    StartupEvent.constructDb ∈
      startupEvents (mainStartup ⟨"s", "", "", "a", "b", "", "k", "u",
        true⟩) :=
  (file_backend_distinct_dirs ⟨"s", "", "", "a", "b", "", "k", "u", true⟩
    rfl rfl (Or.inl (by decide))).2 (by decide)

/-- C10: the `ValidatePort` flag validator accepts a port value exactly when
it lies between 1 and 65535 inclusive. -/
theorem validatePort_iff (port : Int) :
    ValidatePort port = true ↔ 1 ≤ port ∧ port ≤ 65535 := by
  unfold ValidatePort
  split
  · simp
    omega
  · simp
    omega

/-- C10 witness: the default port 9999 is accepted. -/
theorem validatePort_iff_witness : ValidatePort 9999 = true :=
  (validatePort_iff 9999).mpr (by decide)
